import Mathlib

/-!
Verification of the sharding-internals placement-coordination core:
chunk versioning, the migration protocol's registry and orphan cleanup,
distributed locks, and the stale-version retry loop.  The repository's
own README (Sharding Internals) is the authoritative natural-language
description; the referenced C++ implementation files (chunk_version.h,
migration_coordinator.cpp, dist_lock_manager, ...) are not part of this
tree, so the operations are modelled from the specification's words.
-/

namespace ShardingCore

/-- Result of comparing two chunk versions. -/
inductive CompareResult where
  | older
  | equal
  | newer
  | incomparable
deriving DecidableEq, Repr

/-- Modelled from the spec: a chunk version (chunk_version.h is absent from
the tree) is a triple of a major version, a minor version, and an epoch.
The 128-bit ObjectId epoch is modelled as a natural number. -/
structure ChunkVersion where
  major : Nat
  minor : Nat
  epoch : Nat
deriving DecidableEq, Repr

namespace ChunkVersion

/-- Modelled from the spec: compare two chunk versions.  A mismatched epoch
means the versions belong to different collection instances and are
incomparable; with equal epochs the order is lexicographic on
(major, minor). -/
def compare (a b : ChunkVersion) : CompareResult :=
  if a.epoch ≠ b.epoch then .incomparable
  else if a.major < b.major then .older
  else if b.major < a.major then .newer
  else if a.minor < b.minor then .older
  else if b.minor < a.minor then .newer
  else .equal

/-- Modelled from the spec: moving a chunk to another shard increments the
chunk's major version and keeps the minor version and epoch. -/
def nextMajor (v : ChunkVersion) : ChunkVersion :=
  { major := v.major + 1, minor := v.minor, epoch := v.epoch }

/-- Modelled from the spec: splitting a chunk. If the shard version is equal
to the collection version, the major version is increased; the minor
version is always incremented regardless.  The epoch is unchanged. -/
def nextMinorSplit (v c : ChunkVersion) : ChunkVersion :=
  { major := if v = c then v.major + 1 else v.major,
    minor := v.minor + 1,
    epoch := v.epoch }

/-- Modelled from the spec: merging chunks sets the major version to the
collection version's major plus one and resets the minor version to zero. -/
def nextMajorMerge (v c : ChunkVersion) : ChunkVersion :=
  { major := c.major + 1, minor := 0, epoch := v.epoch }

/-- Modelled from the spec: refining a collection's shard key mints a new
epoch while maintaining the chunk's major and minor versions.  ObjectId
minting is modelled by a strictly increasing counter: `gen` is the next
unused identifier, and every previously minted epoch is below `gen`. -/
def withNewEpoch (v : ChunkVersion) (gen : Nat) : ChunkVersion × Nat :=
  ({ major := v.major, minor := v.minor, epoch := gen }, gen + 1)

end ChunkVersion

/-- Lifecycle state of a RangeDeletionTask document in config.rangeDeletions. -/
inductive TaskState where
  | pending
  | ready
  | deleted
deriving DecidableEq, Repr

/-- Outcome decision recorded in the migration coordinator document. -/
inductive Decision where
  | committed
  | aborted
deriving DecidableEq, Repr

/-- Modelled from the spec: the range deletion documents held by the donor and
the recipient of one migration (migration_coordinator.cpp is absent from the
tree), together with whether each side has actually executed the batched
deletion of the range. -/
structure CleanupState where
  donorTask : TaskState
  recipientTask : TaskState
  donorExecuted : Bool
  recipientExecuted : Bool
deriving DecidableEq, Repr

/-- Modelled from the spec: once the decision is recorded, the commit sequence
deletes the range deletion document on the recipient and marks the range as
ready to be deleted on the donor; the abort sequence deletes the range
deletion task on the donor and marks the range as ready on the recipient. -/
def recordDecision (d : Decision) (s : CleanupState) : CleanupState :=
  match d with
  | .committed => { s with recipientTask := .deleted, donorTask := .ready }
  | .aborted => { s with donorTask := .deleted, recipientTask := .ready }

/-- Modelled from the spec: submitting the donor's range for deletion executes
the batched deletion of a ready task and then removes the task document; a
task that is not ready is left untouched. -/
def submitDonorDeletion (s : CleanupState) : CleanupState :=
  if s.donorTask = .ready then
    { s with donorTask := .deleted, donorExecuted := true }
  else s

/-- Modelled from the spec: submitting the recipient's range for deletion
executes the batched deletion of a ready task and then removes the task
document; a task that is not ready is left untouched. -/
def submitRecipientDeletion (s : CleanupState) : CleanupState :=
  if s.recipientTask = .ready then
    { s with recipientTask := .deleted, recipientExecuted := true }
  else s

/-- Modelled from the spec: the completion sequence run by the
MigrationCoordinator: record the decision, then submit the ready side's
range for deletion. -/
def completeMigration (d : Decision) (s : CleanupState) : CleanupState :=
  match d with
  | .committed => submitDonorDeletion (recordDecision .committed s)
  | .aborted => submitRecipientDeletion (recordDecision .aborted s)

/-- Result of registering a migration with the ActiveMigrationsRegistry. -/
inductive RegisterResult where
  | started (migrationId : Nat)
  | joined (migrationId : Nat)
  | conflictingMigrationInProgress
deriving DecidableEq, Repr

/-- Modelled from the spec: the ActiveMigrationsRegistry on a shard
(active_migrations_registry.h is absent from the tree).  `active` is the
in-flight migration on this node, as a pair of its migration id and its
range; ranges are abstracted as naturals.  Registration with no in-flight
migration starts a new one; an in-flight migration for the same range is
joined, returning a handle onto the original operation; an in-flight
migration for a different range makes registration fail with
ConflictingMigrationInProgress, leaving the registry unchanged. -/
def registerMigration (active : Option (Nat × Nat)) (range newId : Nat) :
    RegisterResult × Option (Nat × Nat) :=
  match active with
  | none => (.started newId, some (newId, range))
  | some (id, r) =>
    if r = range then (.joined id, some (id, r))
    else (.conflictingMigrationInProgress, some (id, r))

/-- A completion handle onto migration `migrationId` resolves to that
migration's eventual outcome. -/
def resolveHandle (outcomes : Nat → Decision) (migrationId : Nat) : Decision :=
  outcomes migrationId

/-- Modelled from the spec: the distributed-lock state in the authority
store — the config.locks document for one resource (the owner holding it,
if any) and the config.lockpings documents (time of each owner's last
ping) — plus each owner's local belief about whether it holds the lock. -/
structure LockState where
  holder : Option Nat
  lastPing : Nat → Nat
  believesHeld : Nat → Bool

/-- Modelled from the spec: a lock may be overtaken once its holder's ping
document has not been updated for 15 minutes or more.  Time is in minutes. -/
def staleThresholdDefault : Nat := 15

/-- Modelled from the spec: acquisition is a conditional majority write keyed
on the resource.  It succeeds when no holder exists, or when the holder's
last ping is at least `threshold` old (overtake); otherwise it fails and
changes nothing.  An overtake does not touch the previous holder's local
belief: the previous holder discovers invalidation only later. -/
def tryAcquire (threshold now owner : Nat) (st : LockState) : LockState × Bool :=
  match st.holder with
  | none =>
      ({ holder := some owner,
         lastPing := fun o => if o = owner then now else st.lastPing o,
         believesHeld := fun o => if o = owner then true else st.believesHeld o },
       true)
  | some h =>
      if st.lastPing h + threshold ≤ now then
        ({ holder := some owner,
           lastPing := fun o => if o = owner then now else st.lastPing o,
           believesHeld := fun o => if o = owner then true else st.believesHeld o },
         true)
      else (st, false)

/-- Concurrent acquire attempts on the same resource, all at time `now`,
serialized by the store's conditional writes; returns the final state and
how many of the attempts succeeded. -/
def acquireAll (threshold now : Nat) (owners : List Nat) (st : LockState) :
    LockState × Nat :=
  match owners with
  | [] => (st, 0)
  | o :: rest =>
      let step := tryAcquire threshold now o st
      let restResult := acquireAll threshold now rest step.1
      (restResult.1, (if step.2 then 1 else 0) + restResult.2)

/-- Result of the polling distributed-lock acquisition. -/
inductive PollResult where
  | acquired (pollIndex : Nat)
  | lockBusy
deriving DecidableEq, Repr

/-- Poll interval of the first distributed-lock implementation, in
milliseconds. -/
def pollIntervalMillis : Nat := 500

/-- Total polling window of the first distributed-lock implementation, in
milliseconds. -/
def pollWindowMillis : Nat := 20000

/-- Number of polls made within the polling window. -/
def maxPolls : Nat := pollWindowMillis / pollIntervalMillis

/-- Modelled from the spec: the first implementation of distributed locks
waits for a contended lock by polling the lock document every 500
milliseconds for 20 seconds, returning LockBusy only if the lock was never
seen available.  `avail i` tells whether the lock was observed available at
the i-th poll; `pollLoop` runs from poll `i` with `fuel` polls left. -/
def pollLoop (avail : Nat → Bool) : Nat → Nat → PollResult
  | _, 0 => .lockBusy
  | i, fuel + 1 => if avail i then .acquired i else pollLoop avail (i + 1) fuel

/-- The full polling acquisition: poll from index 0 for the whole window. -/
def acquireWithWait (avail : Nat → Bool) : PollResult :=
  pollLoop avail 0 maxPolls

/-- Response a remote node gives a versioned request. -/
inductive VersionedResponse where
  | accepted
  | staleShardVersion
  | staleDatabaseVersion
deriving DecidableEq, Repr

/-- Outcome of running a request through the refresh-and-retry loop. -/
inductive RequestOutcome where
  | done
  | staleConfigRetriesExhausted
deriving DecidableEq, Repr

/-- Modelled from the spec: the stale-version refresh-and-retry loop (the
retry driver is absent from the tree).  Attempt `i` receives `respond i`;
a stale response triggers a refresh and a retry, and after the configured
maximum number of stale cycles the operation fails with
StaleConfigRetriesExhausted. -/
def retryLoop (respond : Nat → VersionedResponse) : Nat → Nat → RequestOutcome
  | _, 0 => .staleConfigRetriesExhausted
  | i, fuel + 1 =>
    match respond i with
    | .accepted => .done
    | .staleShardVersion => retryLoop respond (i + 1) fuel
    | .staleDatabaseVersion => retryLoop respond (i + 1) fuel

/-- Run a request with a configurable maximum number of stale/retry cycles. -/
def runWithRetries (respond : Nat → VersionedResponse) (maxRetries : Nat) :
    RequestOutcome :=
  retryLoop respond 0 maxRetries

/-- A replica-set operation time: a timestamp and a term. -/
structure OpTime where
  ts : Nat
  t : Int
deriving DecidableEq, Repr

/-- The null optime, timestamp (0, 0) and term -1. -/
def nullOpTime : OpTime := { ts := 0, t := -1 }

/-- A replica-set member's replication state: whether it is in initial sync
and its locally tracked applied and durable optimes. -/
structure SyncNodeState where
  inInitialSync : Bool
  appliedOpTime : OpTime
  durableOpTime : OpTime
deriving DecidableEq, Repr

/-- Modelled from the spec: an initial-syncing node sends no
replSetUpdatePosition commands upstream at all (the replication
implementation is absent from the tree; behavior per the test's contract).
`batchesApplied` counts applied oplog batches, each of which would
otherwise trigger a position update. -/
def updatePositionCount (n : SyncNodeState) (batchesApplied : Nat) : Nat :=
  if n.inInitialSync then 0 else batchesApplied

/-- Modelled from the spec: heartbeat responses from an initial-syncing node
report a null lastApplied optime. -/
def heartbeatLastApplied (n : SyncNodeState) : OpTime :=
  if n.inInitialSync then nullOpTime else n.appliedOpTime

/-- Modelled from the spec: heartbeat responses from an initial-syncing node
report a null lastDurable optime. -/
def heartbeatLastDurable (n : SyncNodeState) : OpTime :=
  if n.inInitialSync then nullOpTime else n.durableOpTime

/-- An optime acknowledges a write at `target` when it reaches `target` in
(term, timestamp) order. -/
def acknowledges (target reported : OpTime) : Bool :=
  if target.t < reported.t then true
  else if target.t = reported.t then decide (target.ts ≤ reported.ts)
  else false

/-- The number of acknowledging nodes the primary counts for a write at
`target`: itself plus every member whose reported optime reaches target. -/
def ackCount (target : OpTime) (reported : List OpTime) : Nat :=
  1 + reported.countP (fun r => acknowledges target r)

/-- Whether write concern w is satisfied given the members' reported
optimes. -/
def writeConcernSatisfied (w : Nat) (target : OpTime) (reported : List OpTime) :
    Bool :=
  decide (w ≤ ackCount target reported)

end ShardingCore

namespace ShardingCore

/-- Claim C2: with equal epochs `compare` is the total order given
lexicographically by (major, minor) — reflexive equality, a strict
lexicographic characterisation of `older`, antisymmetry between `older`
and `newer`, never `incomparable`, and transitivity — while with
differing epochs the result is always `incomparable`. -/
theorem compare_total_order_lex (a b c : ChunkVersion) :
    (a.epoch ≠ b.epoch → ChunkVersion.compare a b = .incomparable)
    ∧ (a.epoch = b.epoch →
        (ChunkVersion.compare a b ≠ .incomparable)
        ∧ (ChunkVersion.compare a b = .equal ↔ a = b)
        ∧ (ChunkVersion.compare a b = .older ↔
            (a.major < b.major ∨ (a.major = b.major ∧ a.minor < b.minor)))
        ∧ (ChunkVersion.compare a b = .newer ↔ ChunkVersion.compare b a = .older))
    ∧ (a.epoch = b.epoch → b.epoch = c.epoch →
        ChunkVersion.compare a b = .older → ChunkVersion.compare b c = .older →
        ChunkVersion.compare a c = .older) := by
  obtain ⟨am, an, ae⟩ := a
  obtain ⟨bm, bn, be⟩ := b
  obtain ⟨cm, cn, ce⟩ := c
  refine ⟨?_, ?_, ?_⟩
  · intro h
    simp [ChunkVersion.compare, h]
  · intro h
    subst h
    refine ⟨?_, ?_, ?_, ?_⟩
    · simp only [ChunkVersion.compare]
      split_ifs <;> simp_all
    · simp only [ChunkVersion.compare, ChunkVersion.mk.injEq]
      split_ifs <;> simp <;> omega
    · simp only [ChunkVersion.compare]
      split_ifs <;> simp <;> omega
    · simp only [ChunkVersion.compare]
      split_ifs <;> simp <;> omega
  · intro h1 h2
    subst h1; subst h2
    simp only [ChunkVersion.compare]
    split_ifs <;> simp <;> omega

/-- Witness for C2 at concrete versions with equal epoch 7 and a
mismatched-epoch pair. -/
theorem compare_total_order_lex_witness :
    ChunkVersion.compare ⟨1, 2, 7⟩ ⟨1, 3, 7⟩ = .older
    ∧ ChunkVersion.compare ⟨1, 2, 7⟩ ⟨1, 2, 9⟩ = .incomparable := by
  constructor
  · exact ((compare_total_order_lex ⟨1, 2, 7⟩ ⟨1, 3, 7⟩ ⟨2, 0, 7⟩).2.1 rfl).2.2.1.mpr
      (by decide)
  · exact (compare_total_order_lex ⟨1, 2, 7⟩ ⟨1, 2, 9⟩ ⟨2, 0, 7⟩).1 (by decide)

/-- Claim C3: moving a chunk increments the major version and leaves the
minor version and epoch unchanged, so each move strictly increases major;
two moves starting from major 1, minor 0 yield major 3, minor 0 with the
same epoch. -/
theorem nextMajor_move (v : ChunkVersion) (e : Nat) :
    (ChunkVersion.nextMajor v).major = v.major + 1
    ∧ (ChunkVersion.nextMajor v).minor = v.minor
    ∧ (ChunkVersion.nextMajor v).epoch = v.epoch
    ∧ v.major < (ChunkVersion.nextMajor v).major
    ∧ ChunkVersion.nextMajor (ChunkVersion.nextMajor ⟨1, 0, e⟩) = ⟨3, 0, e⟩ := by
  refine ⟨rfl, rfl, rfl, ?_, rfl⟩
  simp [ChunkVersion.nextMajor]

/-- Claim C1 counterexample: splitting with shard version equal to collection
version at {3,0,5} yields {4,1,5}, not {4,0,5} as the claim's second example
states — the minor version is always incremented, also when major is. -/
theorem nextMinorSplit_equal_example_refuted :
    ChunkVersion.nextMinorSplit ⟨3, 0, 5⟩ ⟨3, 0, 5⟩ = ⟨4, 1, 5⟩
    ∧ (⟨4, 1, 5⟩ : ChunkVersion) ≠ ⟨4, 0, 5⟩ := by
  decide

/-- Claim C1 (amended): for shard version v and collection version c with the
same epoch, the split transition always increments the minor version, keeps
the epoch, and increments the major version exactly when v equals c; in
particular shard {2,0,E} with collection {3,0,E} splits to {2,1,E}, and
shard equal to collection at {3,0,E} splits to {4,1,E}. -/
theorem nextMinorSplit_spec (v c : ChunkVersion) (h : v.epoch = c.epoch) :
    (ChunkVersion.nextMinorSplit v c).minor = v.minor + 1
    ∧ (ChunkVersion.nextMinorSplit v c).epoch = v.epoch
    ∧ ((ChunkVersion.nextMinorSplit v c).major = v.major + 1 ↔ v = c)
    ∧ (v ≠ c → (ChunkVersion.nextMinorSplit v c).major = v.major)
    ∧ (∀ e, ChunkVersion.nextMinorSplit ⟨2, 0, e⟩ ⟨3, 0, e⟩ = ⟨2, 1, e⟩
        ∧ ChunkVersion.nextMinorSplit ⟨3, 0, e⟩ ⟨3, 0, e⟩ = ⟨4, 1, e⟩) := by
  refine ⟨rfl, rfl, ?_, ?_, ?_⟩
  · constructor
    · intro hmaj
      by_contra hne
      simp [ChunkVersion.nextMinorSplit, hne] at hmaj
    · intro heq
      simp [ChunkVersion.nextMinorSplit, heq]
  · intro hne
    simp [ChunkVersion.nextMinorSplit, hne]
  · intro e
    constructor
    · simp [ChunkVersion.nextMinorSplit]
    · simp [ChunkVersion.nextMinorSplit]

/-- Witness for C1 at the spec's two example inputs with epoch 9. -/
theorem nextMinorSplit_spec_witness :
    ChunkVersion.nextMinorSplit ⟨2, 0, 9⟩ ⟨3, 0, 9⟩ = ⟨2, 1, 9⟩
    ∧ ChunkVersion.nextMinorSplit ⟨3, 0, 9⟩ ⟨3, 0, 9⟩ = ⟨4, 1, 9⟩ :=
  (nextMinorSplit_spec ⟨2, 0, 9⟩ ⟨3, 0, 9⟩ rfl).2.2.2.2 9

/-- Claim C9: withNewEpoch preserves the major and minor versions and changes
the epoch, and a second withNewEpoch call on the result never produces the
same epoch again, provided the generator is ahead of every minted epoch. -/
theorem withNewEpoch_spec (v : ChunkVersion) (gen : Nat) (h : v.epoch < gen) :
    (ChunkVersion.withNewEpoch v gen).1.major = v.major
    ∧ (ChunkVersion.withNewEpoch v gen).1.minor = v.minor
    ∧ (ChunkVersion.withNewEpoch v gen).1.epoch ≠ v.epoch
    ∧ (ChunkVersion.withNewEpoch (ChunkVersion.withNewEpoch v gen).1
        (ChunkVersion.withNewEpoch v gen).2).1.major = v.major
    ∧ (ChunkVersion.withNewEpoch (ChunkVersion.withNewEpoch v gen).1
        (ChunkVersion.withNewEpoch v gen).2).1.minor = v.minor
    ∧ (ChunkVersion.withNewEpoch (ChunkVersion.withNewEpoch v gen).1
        (ChunkVersion.withNewEpoch v gen).2).1.epoch ≠
        (ChunkVersion.withNewEpoch v gen).1.epoch := by
  refine ⟨rfl, rfl, ?_, rfl, rfl, ?_⟩
  · simp only [ChunkVersion.withNewEpoch]
    omega
  · simp only [ChunkVersion.withNewEpoch]
    omega

/-- Witness for C9 at version {2,3,4} with generator 10. -/
theorem withNewEpoch_spec_witness :
    (ChunkVersion.withNewEpoch ⟨2, 3, 4⟩ 10).1.epoch ≠ 4
    ∧ (ChunkVersion.withNewEpoch (ChunkVersion.withNewEpoch ⟨2, 3, 4⟩ 10).1
        (ChunkVersion.withNewEpoch ⟨2, 3, 4⟩ 10).2).1.epoch ≠
        (ChunkVersion.withNewEpoch ⟨2, 3, 4⟩ 10).1.epoch :=
  ⟨(withNewEpoch_spec ⟨2, 3, 4⟩ 10 (by decide)).2.2.1,
   (withNewEpoch_spec ⟨2, 3, 4⟩ 10 (by decide)).2.2.2.2.2⟩

/-- Claim C4: starting from pending tasks on both sides, a committed decision
flips the donor's task to ready and executes it (the task document is then
removed) while the recipient's task is deleted without executing; an aborted
decision deletes the donor's task without executing and flips the
recipient's task to ready and executes it. -/
theorem completeMigration_spec (s : CleanupState)
    (hd : s.donorTask = .pending) (hr : s.recipientTask = .pending)
    (hde : s.donorExecuted = false) (hre : s.recipientExecuted = false) :
    ((recordDecision .committed s).donorTask = .ready
      ∧ completeMigration .committed s =
          { donorTask := .deleted, recipientTask := .deleted,
            donorExecuted := true, recipientExecuted := false })
    ∧ ((recordDecision .aborted s).recipientTask = .ready
      ∧ completeMigration .aborted s =
          { donorTask := .deleted, recipientTask := .deleted,
            donorExecuted := false, recipientExecuted := true }) := by
  obtain ⟨d, r, de, re⟩ := s
  simp only at hd hr hde hre
  subst hd; subst hr; subst hde; subst hre
  decide

/-- Witness for C4 starting from the fresh state with both tasks pending. -/
theorem completeMigration_spec_witness :
    completeMigration .committed
        { donorTask := .pending, recipientTask := .pending,
          donorExecuted := false, recipientExecuted := false } =
      { donorTask := .deleted, recipientTask := .deleted,
        donorExecuted := true, recipientExecuted := false }
    ∧ completeMigration .aborted
        { donorTask := .pending, recipientTask := .pending,
          donorExecuted := false, recipientExecuted := false } =
      { donorTask := .deleted, recipientTask := .deleted,
        donorExecuted := false, recipientExecuted := true } :=
  ⟨(completeMigration_spec _ rfl rfl rfl rfl).1.2,
   (completeMigration_spec _ rfl rfl rfl rfl).2.2⟩

/-- Claim C5: with no in-flight migration a registration starts a new one;
with an in-flight migration for the same range the call joins it — the
registry is unchanged (no second clone is started) and the returned handle
names the original migration, so it resolves to the same outcome; with an
in-flight migration for a different range the call fails immediately with
ConflictingMigrationInProgress, leaving the registry unchanged. -/
theorem registerMigration_join_or_conflict (active : Option (Nat × Nat))
    (range newId : Nat) (outcomes : Nat → Decision) :
    (active = none →
      registerMigration active range newId = (.started newId, some (newId, range)))
    ∧ (∀ id, active = some (id, range) →
        registerMigration active range newId = (.joined id, active))
    ∧ (∀ id jid, active = some (id, range) →
        (registerMigration active range newId).1 = .joined jid →
        resolveHandle outcomes jid = resolveHandle outcomes id)
    ∧ (∀ id r, active = some (id, r) → r ≠ range →
        registerMigration active range newId =
          (.conflictingMigrationInProgress, active)) := by
  refine ⟨?_, ?_, ?_, ?_⟩
  · intro h
    subst h
    rfl
  · intro id h
    subst h
    simp [registerMigration]
  · intro id jid h hres
    subst h
    simp [registerMigration] at hres
    rw [hres]
  · intro id r h hne
    subst h
    simp [registerMigration, hne]

/-- Witness for C5: joining the in-flight migration 7 for range 42, and a
conflicting registration for a different range. -/
theorem registerMigration_join_or_conflict_witness :
    registerMigration (some (7, 42)) 42 8 = (.joined 7, some (7, 42))
    ∧ registerMigration (some (7, 43)) 42 8 =
        (.conflictingMigrationInProgress, some (7, 43)) :=
  ⟨(registerMigration_join_or_conflict (some (7, 42)) 42 8
      (fun _ => .committed)).2.1 7 rfl,
   (registerMigration_join_or_conflict (some (7, 43)) 42 8
      (fun _ => .committed)).2.2.2 7 43 rfl (by decide)⟩

/-- Helper: an acquire attempt against a live (recently pinged) holder fails
and leaves the state unchanged. -/
theorem tryAcquire_fail_of_live (threshold now owner : Nat) (st : LockState)
    (h : Nat) (hh : st.holder = some h) (hl : now < st.lastPing h + threshold) :
    tryAcquire threshold now owner st = (st, false) := by
  simp only [tryAcquire, hh]
  rw [if_neg (by omega)]

/-- Helper: with a live holder, every acquire attempt in a batch fails. -/
theorem acquireAll_of_live (threshold now : Nat) (owners : List Nat)
    (st : LockState) (h : Nat) (hh : st.holder = some h)
    (hl : now < st.lastPing h + threshold) :
    acquireAll threshold now owners st = (st, 0) := by
  induction owners with
  | nil => rfl
  | cons o rest ih =>
    simp only [acquireAll, tryAcquire_fail_of_live threshold now o st h hh hl]
    simp [ih]

/-- Helper: a successful acquire installs its owner as a live holder. -/
theorem tryAcquire_success_live (threshold now owner : Nat) (st : LockState)
    (hpos : 0 < threshold) (hs : (tryAcquire threshold now owner st).2 = true) :
    (tryAcquire threshold now owner st).1.holder = some owner
    ∧ now < (tryAcquire threshold now owner st).1.lastPing owner + threshold := by
  simp only [tryAcquire]
  cases hh : st.holder with
  | none => simp [hh]; omega
  | some h =>
    simp only
    by_cases hc : st.lastPing h + threshold ≤ now
    · rw [if_pos hc]
      simp
      omega
    · exfalso
      simp only [tryAcquire, hh] at hs
      rw [if_neg hc] at hs
      simp at hs

/-- Helper: among any batch of concurrent acquire attempts at one instant,
at most one succeeds. -/
theorem acquireAll_le_one (threshold now : Nat) (hpos : 0 < threshold) :
    ∀ (owners : List Nat) (st : LockState),
      (acquireAll threshold now owners st).2 ≤ 1 := by
  intro owners
  induction owners with
  | nil =>
    intro st
    simp [acquireAll]
  | cons o rest ih =>
    intro st
    simp only [acquireAll]
    cases hs : (tryAcquire threshold now o st).2 with
    | false => simpa using ih (tryAcquire threshold now o st).1
    | true =>
      obtain ⟨hhold, hlive⟩ := tryAcquire_success_live threshold now o st hpos hs
      rw [acquireAll_of_live threshold now rest _ o hhold hlive]
      simp

/-- Claim C6: at most one of any batch of concurrent acquire attempts on the
same resource succeeds; a successful acquire over an existing holder happens
only when the holder's last ping is at least the staleness threshold old
(default 15 minutes); and after such an overtake the previous holder's local
belief that it holds the lock is untouched. -/
theorem lock_mutual_exclusion (threshold now owner h : Nat)
    (owners : List Nat) (st : LockState) :
    staleThresholdDefault = 15
    ∧ (0 < threshold → (acquireAll threshold now owners st).2 ≤ 1)
    ∧ (st.holder = some h → (tryAcquire threshold now owner st).2 = true →
        st.lastPing h + threshold ≤ now)
    ∧ (st.holder = some h → st.believesHeld h = true → h ≠ owner →
        (tryAcquire threshold now owner st).2 = true →
        (tryAcquire threshold now owner st).1.holder = some owner
        ∧ (tryAcquire threshold now owner st).1.believesHeld h = true) := by
  refine ⟨rfl, ?_, ?_, ?_⟩
  · intro hpos
    exact acquireAll_le_one threshold now hpos owners st
  · intro hh hs
    by_contra hc
    rw [tryAcquire_fail_of_live threshold now owner st h hh (by omega)] at hs
    simp at hs
  · intro hh hb hne hs
    have hstale : st.lastPing h + threshold ≤ now := by
      by_contra hc
      rw [tryAcquire_fail_of_live threshold now owner st h hh (by omega)] at hs
      simp at hs
    constructor
    · simp only [tryAcquire, hh]
      rw [if_pos hstale]
    · simp only [tryAcquire, hh]
      rw [if_pos hstale]
      have hbelief : (if h = owner then true else st.believesHeld h) = true := by
        rw [if_neg hne]
        exact hb
      exact hbelief

/-- Witness for C6: holder 0 last pinged at minute 0; at minute 20 three
competing acquires at the default threshold yield at most one success, the
overtake condition holds, and holder 0 still believes it holds the lock. -/
theorem lock_mutual_exclusion_witness :
    (acquireAll staleThresholdDefault 20 [1, 2, 3]
        { holder := some 0, lastPing := fun _ => 0,
          believesHeld := fun o => decide (o = 0) }).2 ≤ 1
    ∧ ({ holder := some 0, lastPing := fun _ => 0,
          believesHeld := fun o => decide (o = 0) } : LockState).lastPing 0
        + staleThresholdDefault ≤ 20
    ∧ (tryAcquire staleThresholdDefault 20 1
        { holder := some 0, lastPing := fun _ => 0,
          believesHeld := fun o => decide (o = 0) }).1.holder = some 1
    ∧ (tryAcquire staleThresholdDefault 20 1
        { holder := some 0, lastPing := fun _ => 0,
          believesHeld := fun o => decide (o = 0) }).1.believesHeld 0 = true := by
  have h := lock_mutual_exclusion staleThresholdDefault 20 1 0 [1, 2, 3]
    { holder := some 0, lastPing := fun _ => 0,
      believesHeld := fun o => decide (o = 0) }
  have hs : (tryAcquire staleThresholdDefault 20 1
      { holder := some 0, lastPing := fun _ => 0,
        believesHeld := fun o => decide (o = 0) }).2 = true := by decide
  have hb := h.2.2.2 rfl (by decide) (by decide) hs
  exact ⟨h.2.1 (by decide), h.2.2.1 rfl hs, hb.1, hb.2⟩

/-- Helper: if the lock is never seen available during the whole polling
window, the poll loop returns LockBusy. -/
theorem pollLoop_busy (avail : Nat → Bool) :
    ∀ (fuel i : Nat), (∀ j, i ≤ j → j < i + fuel → avail j = false) →
      pollLoop avail i fuel = .lockBusy := by
  intro fuel
  induction fuel with
  | zero => intro i _; rfl
  | succ n ih =>
    intro i h
    have h0 : avail i = false := h i le_rfl (by omega)
    simp only [pollLoop, h0, Bool.false_eq_true, if_false]
    exact ih (i + 1) (fun j hj1 hj2 => h j (by omega) (by omega))

/-- Helper: the poll loop succeeds at the first poll that sees the lock
available, provided it is within the window. -/
theorem pollLoop_first (avail : Nat → Bool) :
    ∀ (fuel i k : Nat), i ≤ k → k < i + fuel → avail k = true →
      (∀ j, i ≤ j → j < k → avail j = false) →
      pollLoop avail i fuel = .acquired k := by
  intro fuel
  induction fuel with
  | zero => intro i k h1 h2 _ _; omega
  | succ n ih =>
    intro i k h1 h2 hk hprev
    by_cases hik : i = k
    · subst hik
      simp [pollLoop, hk]
    · have hi : avail i = false := hprev i le_rfl (by omega)
      simp only [pollLoop, hi, Bool.false_eq_true, if_false]
      exact ih (i + 1) k (by omega) (by omega) hk
        (fun j hj1 hj2 => hprev j (by omega) hj2)

/-- Claim C7 counterexample: with a live holder at the first poll (the lock
is not available at poll 0), the acquisition does not fail with LockBusy —
it waits internally, polling until the lock is seen available at poll 2,
refuting the claim that there is no waiting loop inside the primitive. -/
theorem acquire_waits_internally :
    (fun i => decide (2 ≤ i)) 0 = false
    ∧ acquireWithWait (fun i => decide (2 ≤ i)) = .acquired 2
    ∧ acquireWithWait (fun i => decide (2 ≤ i)) ≠ .lockBusy := by
  decide

/-- Claim C7 (amended): the lock primitive itself waits for a contended lock
by polling every 500 ms for 20 seconds (40 polls); it returns LockBusy only
if the lock was never seen available during that window, and succeeds at the
first poll that sees it available; retrying after LockBusy is the caller's
responsibility. -/
theorem acquireWithWait_spec (avail : Nat → Bool) :
    pollIntervalMillis = 500
    ∧ pollWindowMillis = 20000
    ∧ maxPolls = 40
    ∧ ((∀ i, i < maxPolls → avail i = false) → acquireWithWait avail = .lockBusy)
    ∧ (∀ k, k < maxPolls → avail k = true → (∀ j, j < k → avail j = false) →
        acquireWithWait avail = .acquired k) := by
  refine ⟨rfl, rfl, rfl, ?_, ?_⟩
  · intro h
    exact pollLoop_busy avail maxPolls 0 (fun j _ hj2 => h j (by omega))
  · intro k hk hav hprev
    exact pollLoop_first avail maxPolls 0 k (Nat.zero_le k) (by omega) hav
      (fun j _ hj2 => hprev j hj2)

/-- Witness for C7: a permanently held lock yields LockBusy after the window;
a lock that frees up at poll 3 is acquired at poll 3. -/
theorem acquireWithWait_spec_witness :
    acquireWithWait (fun _ => false) = .lockBusy
    ∧ acquireWithWait (fun i => decide (3 ≤ i)) = .acquired 3 :=
  ⟨(acquireWithWait_spec (fun _ => false)).2.2.2.1 (fun _ _ => rfl),
   (acquireWithWait_spec (fun i => decide (3 ≤ i))).2.2.2.2 3 (by decide)
     (by decide) (by decide)⟩

/-- Helper: a response stream that never accepts drives the retry loop to
exhaustion from any attempt index. -/
theorem retryLoop_stale (respond : Nat → VersionedResponse)
    (h : ∀ i, respond i ≠ .accepted) :
    ∀ (fuel i : Nat), retryLoop respond i fuel = .staleConfigRetriesExhausted := by
  intro fuel
  induction fuel with
  | zero => intro i; rfl
  | succ n ih =>
    intro i
    simp only [retryLoop]
    cases hr : respond i with
    | accepted => exact absurd hr (h i)
    | staleShardVersion => exact ih (i + 1)
    | staleDatabaseVersion => exact ih (i + 1)

/-- Claim C8: a request that receives a StaleShardVersion or
StaleDatabaseVersion response on every attempt terminates after the
configured maximum number of stale/retry cycles with
StaleConfigRetriesExhausted, for every configured maximum. -/
theorem runWithRetries_exhausts (respond : Nat → VersionedResponse)
    (maxRetries : Nat)
    (h : ∀ i, respond i = .staleShardVersion ∨ respond i = .staleDatabaseVersion) :
    runWithRetries respond maxRetries = .staleConfigRetriesExhausted := by
  have h2 : ∀ i, respond i ≠ .accepted := by
    intro i
    rcases h i with hi | hi <;> simp [hi]
  exact retryLoop_stale respond h2 maxRetries 0

/-- Witness for C8: a stream of StaleShardVersion responses exhausts a
5-retry budget. -/
theorem runWithRetries_exhausts_witness :
    runWithRetries (fun _ => .staleShardVersion) 5 =
      .staleConfigRetriesExhausted :=
  runWithRetries_exhausts (fun _ => .staleShardVersion) 5 (fun _ => Or.inl rfl)

/-- Claim C10: a node in initial sync sends zero replSetUpdatePosition
commands upstream and reports null lastApplied and lastDurable optimes in
heartbeat responses, so the primary never counts it toward w:2 or
w:majority acknowledgement of any write with a real (non-negative) term —
whatever the node's locally advanced applied and durable optimes are. -/
theorem initial_sync_no_progress (n : SyncNodeState) (target : OpTime)
    (batches : Nat) (hsync : n.inInitialSync = true) (hterm : 0 ≤ target.t) :
    updatePositionCount n batches = 0
    ∧ heartbeatLastApplied n = nullOpTime
    ∧ heartbeatLastDurable n = nullOpTime
    ∧ acknowledges target (heartbeatLastApplied n) = false
    ∧ acknowledges target (heartbeatLastDurable n) = false
    ∧ writeConcernSatisfied 2 target [heartbeatLastDurable n] = false := by
  have h1 : heartbeatLastApplied n = nullOpTime := by
    simp [heartbeatLastApplied, hsync]
  have h2 : heartbeatLastDurable n = nullOpTime := by
    simp [heartbeatLastDurable, hsync]
  have hack : acknowledges target nullOpTime = false := by
    simp only [acknowledges, nullOpTime]
    split_ifs with hc1 hc2
    · exact absurd hc1 (by omega)
    · exact absurd hc2 (by omega)
    · rfl
  refine ⟨by simp [updatePositionCount, hsync], h1, h2, ?_, ?_, ?_⟩
  · rw [h1]; exact hack
  · rw [h2]; exact hack
  · rw [h2]
    simp [writeConcernSatisfied, ackCount, List.countP, List.countP.go, hack]

/-- Witness for C10: an initial-syncing node whose local applied and durable
optimes have advanced to timestamp 100 in term 1 still reports no progress
for a write at timestamp 5 in term 0, while its local optime would have
acknowledged that write. -/
theorem initial_sync_no_progress_witness :
    updatePositionCount ⟨true, ⟨100, 1⟩, ⟨100, 1⟩⟩ 3 = 0
    ∧ heartbeatLastApplied ⟨true, ⟨100, 1⟩, ⟨100, 1⟩⟩ = nullOpTime
    ∧ writeConcernSatisfied 2 ⟨5, 0⟩
        [heartbeatLastDurable ⟨true, ⟨100, 1⟩, ⟨100, 1⟩⟩] = false
    ∧ acknowledges ⟨5, 0⟩
        (⟨true, ⟨100, 1⟩, ⟨100, 1⟩⟩ : SyncNodeState).appliedOpTime = true := by
  have h := initial_sync_no_progress ⟨true, ⟨100, 1⟩, ⟨100, 1⟩⟩ ⟨5, 0⟩ 3 rfl
    (by decide)
  exact ⟨h.1, h.2.1, h.2.2.2.2.2, by decide⟩

end ShardingCore
